import Mathlib

/-
Shallow embedding of the data-generation core of src/PYTHON/utils.py
(functions pathology, generate_simulated_design, compute_beta_response,
generate_simulated_data).

Modelling conventions:
  * NumPy float64 values are modelled as extended rationals `WithBot ℚ`,
    with `⊥` standing for -inf (needed by the screening_inf sentinel).
    All arithmetic the program performs on possibly -inf values
    (assignment, multiplication by a 0/1 mask, addition of a finite
    number) agrees with IEEE semantics under this reading; NaN never
    arises on any path the program reaches (beta is drawn finite, and
    -inf is only combined with finite numbers via + and with 0/1 masks
    the program never applies after screening_inf in one call).
  * Randomness is passed explicitly.  A uniform draw in [0,1) is a `ℚ`
    argument; np.random.choice over [a0, a1] with p=[p0, p1] is the
    inverse-CDF map u ↦ if u < p0 then a0 else a1 (NumPy draws one
    uniform and searches the cumulative distribution [p0, p0+p1]);
    np.random.randint(n) is u ↦ ⌊u * n⌋; the multivariate-normal sampler
    and the Gumbel transform -log(-log(u)) are real-valued and are
    abstracted as oracle streams supplying the drawn values directly.
  * Python exceptions are modelled with `Except SimError`:
    `NotImplementedError` as `SimError.notImplemented`, NumPy shape /
    empty-argmax `ValueError`s as `SimError.valueError`.
  * The Python dict data_dict is the record `DataDict`; keys that are
    only present after simulation are `Option` fields, `none` = absent.
-/

inductive SimError where
  | notImplemented : SimError
  | valueError : SimError
deriving DecidableEq, Repr

/-- The data_dict bundle of utils.py.  X is indexed
respondent / scenario / alternative / level; Z is the transposed
covariate matrix (respondent / covariate) as stored under key Z. -/
structure DataDict where
  X : List (List (List (List ℚ)))
  Z : List (List ℚ)
  A : ℕ
  R : ℕ
  C : ℕ
  T : ℕ
  L : ℕ
  Beta : Option (List (List (WithBot ℚ)))
  Y : Option (List (List ℕ))
  Gamma : Option (List ℚ)
  Vbeta : Option (List (List ℚ))
  w : Option (List ℕ)
deriving DecidableEq

/-- Oracle supplying every random draw compute_beta_response makes.
gammaU: uniforms for np.random.uniform(-3, 4, size=C*L);
betaDraw: the value of the np.random.multivariate_normal(Gamma, Vbeta)
draw for a respondent (component-wise; the sampler is abstracted, its
output length is that of the mean vector, C*L);
pathU: the uniform stream consumed by pathology for a respondent;
gumbel: the value of -log(-log(np.random.uniform())) for
(respondent, scenario, position);
wU: uniforms for np.random.binomial(1, .5, size=T). -/
structure SimOracle where
  gammaU : ℕ → ℚ
  betaDraw : ℕ → ℕ → ℚ
  pathU : ℕ → ℕ → ℚ
  gumbel : ℕ → ℕ → ℕ → ℚ
  wU : ℕ → ℚ

/-- np.random.choice([0, 1], p=[.5, .5]) from a uniform draw u. -/
def npChoice01 (u : ℚ) : ℚ :=
  if u < 1/2 then 0 else 1

/-- np.random.choice([1, 0], p=prob) from a uniform draw u: the value 1
is returned when u falls below prob[0] (the first cumulative weight). -/
def npChoice10 (prob : ℚ × ℚ) (u : ℚ) : ℚ :=
  if u < prob.1 then 1 else 0

/-- np.random.randint(n) from a uniform draw u in [0,1). -/
def npRandint (n : ℕ) (u : ℚ) : ℕ :=
  (⌊u * n⌋).toNat

/-- pathology(beta, kind, prob) of utils.py.  beta is mutated in place
and returned in Python; here the resulting vector is returned.  us is
the stream of uniform draws the kind consumes (elementwise mask draws
for ANA; the Bernoulli coin at position 0 and the randint draw at
position 1 for the random kinds).  Python raises IndexError on the
beta[-1] assignment of the screening kinds when beta is empty; the
embedding is total (List.set out of range is a no-op) and the theorems
about those kinds assume a nonempty vector. -/
def pathology (beta : List (WithBot ℚ)) (kind : String) (prob : ℚ × ℚ)
    (us : ℕ → ℚ) : List (WithBot ℚ) :=
  if kind = "none" then beta
  else if kind = "ANA" then
    -- beta *= np.random.choice([1, 0], size=len(beta), p=prob)
    List.zipWith (fun b i => b * ((npChoice10 prob (us i) : ℚ) : WithBot ℚ))
      beta (List.range beta.length)
  else if kind = "screening" then
    -- beta[-1] = -10000
    beta.set (beta.length - 1) ((-10000 : ℚ) : WithBot ℚ)
  else if kind = "screening_inf" then
    -- beta[-1] = -np.inf
    beta.set (beta.length - 1) ⊥
  else if kind = "screening_random" then
    -- if int(np.random.choice([1,0], p=prob)): beta[randint(len(beta))] = -10000
    if npChoice10 prob (us 0) = 1 then
      beta.set (npRandint beta.length (us 1)) ((-10000 : ℚ) : WithBot ℚ)
    else beta
  else if kind = "ANA_systematic" then
    -- pathology_vector = ones; pathology_vector[len//2:] = 0; beta *= pathology_vector
    List.zipWith
      (fun b i => b * (((if i < beta.length / 2 then (1:ℚ) else 0) : ℚ) : WithBot ℚ))
      beta (List.range beta.length)
  else if kind = "ANA_random" then
    -- if coin: pathology_vector = ones; pathology_vector[:len//2] = 0; beta *= it
    if npChoice10 prob (us 0) = 1 then
      List.zipWith
        (fun b i => b * (((if i < beta.length / 2 then (0:ℚ) else 1) : ℚ) : WithBot ℚ))
        beta (List.range beta.length)
    else beta
  else beta

/-- Sequential effectful loop over a list, collecting results; the
first raised exception aborts the loop, exactly like the Python for
loops the simulator uses. -/
def exceptMap {α β : Type} (f : α → Except SimError β) :
    List α → Except SimError (List β)
  | [] => Except.ok []
  | x :: xs =>
    match f x with
    | Except.error e => Except.error e
    | Except.ok y =>
      match exceptMap f xs with
      | Except.error e => Except.error e
      | Except.ok ys => Except.ok (y :: ys)

/-- generate_simulated_design(nresp, nscns, nalts, nlvls, ncovs) of
utils.py.  u is the uniform stream for the np.random.choice([0,1])
design draws, indexed respondent / scenario / flat position
(alt * nlvls + lvl, matching the reshape).  The ncovs > 1 guard is
raised inside the per-respondent loop, which exceptMap mirrors: with
nresp = 0 the loop body, and hence the guard, never runs. -/
def generate_simulated_design (nresp nscns nalts nlvls ncovs : ℕ)
    (u : ℕ → ℕ → ℕ → ℚ) : Except SimError DataDict :=
  match exceptMap
      (fun _resp =>
        if 1 < ncovs then Except.error SimError.notImplemented
        else Except.ok ())
      (List.range nresp) with
  | Except.error e => Except.error e
  | Except.ok _ =>
    Except.ok
      { X := (List.range nresp).map (fun resp =>
          (List.range nscns).map (fun scn =>
            (List.range nalts).map (fun alt =>
              (List.range nlvls).map (fun lvl =>
                npChoice01 (u resp scn (alt * nlvls + lvl))))))
        Z := (List.range nresp).map (fun _ =>
          (List.range ncovs).map (fun _ => (1:ℚ)))
        A := nalts
        R := nresp
        C := ncovs
        T := nscns
        L := nlvls
        Beta := none
        Y := none
        Gamma := none
        Vbeta := none
        w := none }

/-- X_scn.dot(beta): dot product of one alternative's 0/1 feature row
with the (possibly -inf valued) preference vector. -/
def dotWB (row : List ℚ) (beta : List (WithBot ℚ)) : WithBot ℚ :=
  (List.zipWith (fun x b => ((x : ℚ) : WithBot ℚ) * b) row beta).sum

/-- Subtraction of a finite float from a possibly -inf float:
(-inf) - g = -inf, a - g otherwise. -/
def wbSub (a : WithBot ℚ) (g : ℚ) : WithBot ℚ :=
  a + ((-g : ℚ) : WithBot ℚ)

/-- NumPy broadcasting of xs - ys for one-dimensional arrays: equal
lengths subtract elementwise, a length-1 operand is stretched, any
other shape pair raises ValueError. -/
def npBroadcastSub (xs : List (WithBot ℚ)) (ys : List ℚ) :
    Except SimError (List (WithBot ℚ)) :=
  if xs.length = ys.length then
    Except.ok (List.zipWith wbSub xs ys)
  else if ys.length = 1 then
    Except.ok (xs.map (fun a => wbSub a (ys.headD 0)))
  else if xs.length = 1 then
    Except.ok (ys.map (fun g => wbSub (xs.headD ⊥) g))
  else Except.error SimError.valueError

/-- Scan of np.argmax: keeps the first index whose value is strictly
greater than everything before it.  i is the index of the next element,
bi / bv the best index and value so far. -/
def argmaxAux : List (WithBot ℚ) → ℕ → ℕ → WithBot ℚ → ℕ
  | [], _, bi, _ => bi
  | x :: xs, i, bi, bv =>
    if bv < x then argmaxAux xs (i+1) i x else argmaxAux xs (i+1) bi bv

/-- np.argmax on a one-dimensional array; none models the ValueError on
an empty array. -/
def npArgmax : List (WithBot ℚ) → Option ℕ
  | [] => none
  | x :: xs => some (argmaxAux xs 1 0 x)

/-- compute_beta_response(data_dict, pathology_type) of utils.py.
Python truthiness of the pathology_type argument is mirrored: pathology
runs only when the argument is a nonempty string.  The Gumbel noise is
drawn with size = C — the source line
U_scn = X_scn.dot(beta) - np.log(-np.log(np.random.uniform(size=data_dict['C'])))
— so with C = 1 one single noise value is broadcast across all
alternatives of a scenario.  The per-respondent guard raising
NotImplementedError for C > 1 sits at the top of the loop body; the
final check mirrors the NumPy broadcast of Beta[:, resp] += beta
(shapes (L,) and (C*L,)), which fails unless C*L = L or C*L = 1. -/
def compute_beta_response (d : DataDict) (pathology_type : Option String)
    (orc : SimOracle) : Except SimError DataDict :=
  let Gamma : List ℚ := (List.range (d.C * d.L)).map (fun i => -3 + 7 * orc.gammaU i)
  let Vbeta : List (List ℚ) := (List.range d.L).map (fun i =>
    (List.range d.L).map (fun j => (if i = j then (1:ℚ) else 0) + 1/2))
  let betaOf : ℕ → List (WithBot ℚ) := fun resp =>
    let beta0 : List (WithBot ℚ) :=
      (List.range (d.C * d.L)).map (fun i => ((orc.betaDraw resp i : ℚ) : WithBot ℚ))
    match pathology_type with
    | none => beta0
    | some kind =>
      if kind = "" then beta0
      else pathology beta0 kind (1/2, 1/2) (orc.pathU resp)
  let simScn : ℕ → ℕ → Except SimError ℕ := fun resp scn =>
    let X_scn := (d.X.getD resp []).getD scn []
    let dots := X_scn.map (fun row => dotWB row (betaOf resp))
    let noise := (List.range d.C).map (fun i => orc.gumbel resp scn i)
    match npBroadcastSub dots noise with
    | Except.error e => Except.error e
    | Except.ok U_scn =>
      match npArgmax U_scn with
      | none => Except.error SimError.valueError
      | some idx => Except.ok (idx + 1)
  let simResp : ℕ → Except SimError (List ℕ) := fun resp =>
    if 1 < d.C then Except.error SimError.notImplemented
    else
      match exceptMap (simScn resp) (List.range d.T) with
      | Except.error e => Except.error e
      | Except.ok row =>
        if d.C * d.L = d.L ∨ d.C * d.L = 1 then Except.ok row
        else Except.error SimError.valueError
  match exceptMap simResp (List.range d.R) with
  | Except.error e => Except.error e
  | Except.ok Yrows =>
    Except.ok
      { d with
        Beta := some ((List.range d.L).map (fun l =>
          (List.range d.R).map (fun r => (betaOf r).getD l 0)))
        Y := some Yrows
        Gamma := some Gamma
        Vbeta := some Vbeta
        w := if pathology_type = some "ANA"
             then some ((List.range d.T).map (fun scn =>
               if orc.wU scn < 1/2 then 1 else 0))
             else d.w }

/-- generate_simulated_data(pathology_type) of utils.py: the
orchestrator composing the design generator at the fixed default
dimensions (100, 10, 4, 12, 1) with the response simulator; its own
default argument is the string "none". -/
def generate_simulated_data (pathology_type : Option String)
    (u : ℕ → ℕ → ℕ → ℚ) (orc : SimOracle) : Except SimError DataDict :=
  match generate_simulated_design 100 10 4 12 1 u with
  | Except.error e => Except.error e
  | Except.ok d => compute_beta_response d pathology_type orc

/-! Helper lemmas: branch characterisations of pathology, one per kind. -/

lemma pathology_eq_ANA (beta : List (WithBot ℚ)) (prob : ℚ × ℚ) (us : ℕ → ℚ) :
    pathology beta "ANA" prob us =
      List.zipWith (fun b i => b * ((npChoice10 prob (us i) : ℚ) : WithBot ℚ))
        beta (List.range beta.length) := by
  unfold pathology
  rw [if_neg (by decide), if_pos rfl]

lemma pathology_eq_screening (beta : List (WithBot ℚ)) (prob : ℚ × ℚ) (us : ℕ → ℚ) :
    pathology beta "screening" prob us =
      beta.set (beta.length - 1) ((-10000 : ℚ) : WithBot ℚ) := by
  unfold pathology
  rw [if_neg (by decide), if_neg (by decide), if_pos rfl]

lemma pathology_eq_screening_inf (beta : List (WithBot ℚ)) (prob : ℚ × ℚ) (us : ℕ → ℚ) :
    pathology beta "screening_inf" prob us = beta.set (beta.length - 1) ⊥ := by
  unfold pathology
  rw [if_neg (by decide), if_neg (by decide), if_neg (by decide), if_pos rfl]

lemma pathology_eq_screening_random (beta : List (WithBot ℚ)) (prob : ℚ × ℚ) (us : ℕ → ℚ) :
    pathology beta "screening_random" prob us =
      if npChoice10 prob (us 0) = 1 then
        beta.set (npRandint beta.length (us 1)) ((-10000 : ℚ) : WithBot ℚ)
      else beta := by
  unfold pathology
  rw [if_neg (by decide), if_neg (by decide), if_neg (by decide), if_neg (by decide),
    if_pos rfl]

lemma pathology_eq_ANA_systematic (beta : List (WithBot ℚ)) (prob : ℚ × ℚ) (us : ℕ → ℚ) :
    pathology beta "ANA_systematic" prob us =
      List.zipWith
        (fun b i => b * (((if i < beta.length / 2 then (1:ℚ) else 0) : ℚ) : WithBot ℚ))
        beta (List.range beta.length) := by
  unfold pathology
  rw [if_neg (by decide), if_neg (by decide), if_neg (by decide), if_neg (by decide),
    if_neg (by decide), if_pos rfl]

lemma pathology_eq_ANA_random (beta : List (WithBot ℚ)) (prob : ℚ × ℚ) (us : ℕ → ℚ) :
    pathology beta "ANA_random" prob us =
      if npChoice10 prob (us 0) = 1 then
        List.zipWith
          (fun b i => b * (((if i < beta.length / 2 then (0:ℚ) else 1) : ℚ) : WithBot ℚ))
          beta (List.range beta.length)
      else beta := by
  unfold pathology
  rw [if_neg (by decide), if_neg (by decide), if_neg (by decide), if_neg (by decide),
    if_neg (by decide), if_neg (by decide), if_pos rfl]

/-- Index access into an elementwise mask product over a vector. -/
lemma zipWith_range_getElem (f : WithBot ℚ → ℕ → WithBot ℚ) (l : List (WithBot ℚ))
    (i : ℕ) (hi : i < l.length)
    (h : i < (List.zipWith f l (List.range l.length)).length) :
    (List.zipWith f l (List.range l.length))[i] = f l[i] i := by
  rw [List.getElem_zipWith]
  congr 1
  exact List.getElem_range i (by simpa using hi)

lemma zipWith_range_length (f : WithBot ℚ → ℕ → WithBot ℚ) (l : List (WithBot ℚ)) :
    (List.zipWith f l (List.range l.length)).length = l.length := by
  simp [List.length_zipWith]

/-- C5: pathology(beta, 'screening') sets exactly the last component to
-10000 and leaves every other component unchanged, and
pathology(beta, 'screening_inf') sets exactly the last component to
negative infinity (⊥) and leaves every other component unchanged, for
every nonempty input vector. -/
theorem pathology_screening_sets_last (beta : List (WithBot ℚ)) (prob : ℚ × ℚ)
    (us : ℕ → ℚ) (h : 0 < beta.length) :
    ((pathology beta "screening" prob us).length = beta.length ∧
      (pathology beta "screening" prob us).getD (beta.length - 1) 0 =
        ((-10000 : ℚ) : WithBot ℚ) ∧
      ∀ i, i < beta.length - 1 →
        (pathology beta "screening" prob us).getD i 0 = beta.getD i 0) ∧
    ((pathology beta "screening_inf" prob us).length = beta.length ∧
      (pathology beta "screening_inf" prob us).getD (beta.length - 1) 0 = ⊥ ∧
      ∀ i, i < beta.length - 1 →
        (pathology beta "screening_inf" prob us).getD i 0 = beta.getD i 0) := by
  rw [pathology_eq_screening, pathology_eq_screening_inf]
  have hlast : beta.length - 1 < beta.length := Nat.sub_lt h Nat.one_pos
  refine ⟨⟨List.length_set _ _ _, ?_, ?_⟩, List.length_set _ _ _, ?_, ?_⟩
  · rw [List.getD_eq_getElem _ _ (by simpa using hlast)]
    exact List.getElem_set_self _
  · intro i hi
    have hib : i < beta.length := lt_trans hi hlast
    rw [List.getD_eq_getElem _ _ (by simpa using hib),
      List.getD_eq_getElem _ _ hib,
      List.getElem_set_ne (Nat.ne_of_gt hi)]
  · rw [List.getD_eq_getElem _ _ (by simpa using hlast)]
    exact List.getElem_set_self _
  · intro i hi
    have hib : i < beta.length := lt_trans hi hlast
    rw [List.getD_eq_getElem _ _ (by simpa using hib),
      List.getD_eq_getElem _ _ hib,
      List.getElem_set_ne (Nat.ne_of_gt hi)]

theorem pathology_screening_sets_last_witness :
    0 < ([((1:ℚ) : WithBot ℚ), ((2:ℚ) : WithBot ℚ)]).length ∧
    (pathology [((1:ℚ) : WithBot ℚ), ((2:ℚ) : WithBot ℚ)] "screening" (1/2, 1/2)
      (fun _ => 0)).getD 1 0 = ((-10000 : ℚ) : WithBot ℚ) ∧
    (pathology [((1:ℚ) : WithBot ℚ), ((2:ℚ) : WithBot ℚ)] "screening_inf" (1/2, 1/2)
      (fun _ => 0)).getD 0 0 = ((1:ℚ) : WithBot ℚ) := by
  have h := pathology_screening_sets_last
    [((1:ℚ) : WithBot ℚ), ((2:ℚ) : WithBot ℚ)] (1/2, 1/2) (fun _ => 0) (by norm_num)
  exact ⟨by norm_num, h.1.2.1, (h.2.2.2 0 (by norm_num)).trans rfl⟩

/-- C6: pathology(beta, 'ANA_systematic') deterministically zeroes the
second half of the vector (indices ⌊L/2⌋ .. L-1) and leaves the first
half (indices 0 .. ⌊L/2⌋-1) unchanged. -/
theorem pathology_ANA_systematic_halves (beta : List (WithBot ℚ)) (prob : ℚ × ℚ)
    (us : ℕ → ℚ) :
    (pathology beta "ANA_systematic" prob us).length = beta.length ∧
    (∀ i, i < beta.length / 2 →
      (pathology beta "ANA_systematic" prob us).getD i 0 = beta.getD i 0) ∧
    (∀ i, beta.length / 2 ≤ i → i < beta.length →
      (pathology beta "ANA_systematic" prob us).getD i 0 = 0) := by
  rw [pathology_eq_ANA_systematic]
  refine ⟨zipWith_range_length _ _, ?_, ?_⟩
  · intro i hi
    have hib : i < beta.length := lt_of_lt_of_le hi (Nat.div_le_self _ 2)
    rw [List.getD_eq_getElem _ _ (by rw [zipWith_range_length]; exact hib),
      List.getD_eq_getElem _ _ hib, zipWith_range_getElem _ _ _ hib]
    rw [if_pos hi]
    rw [WithBot.coe_one, mul_one]
  · intro i h2 hib
    rw [List.getD_eq_getElem _ _ (by rw [zipWith_range_length]; exact hib),
      zipWith_range_getElem _ _ _ hib]
    rw [if_neg (not_lt_of_ge h2)]
    rw [WithBot.coe_zero, mul_zero]

theorem pathology_ANA_systematic_halves_witness :
    ((pathology
        [((1:ℚ):WithBot ℚ), ((2:ℚ):WithBot ℚ), ((3:ℚ):WithBot ℚ), ((4:ℚ):WithBot ℚ),
         ((5:ℚ):WithBot ℚ), ((6:ℚ):WithBot ℚ), ((7:ℚ):WithBot ℚ), ((8:ℚ):WithBot ℚ),
         ((9:ℚ):WithBot ℚ), ((10:ℚ):WithBot ℚ), ((11:ℚ):WithBot ℚ), ((12:ℚ):WithBot ℚ)]
        "ANA_systematic" (1/2, 1/2) (fun _ => 0)).getD 6 0 = 0) ∧
    ((pathology
        [((1:ℚ):WithBot ℚ), ((2:ℚ):WithBot ℚ), ((3:ℚ):WithBot ℚ), ((4:ℚ):WithBot ℚ),
         ((5:ℚ):WithBot ℚ), ((6:ℚ):WithBot ℚ), ((7:ℚ):WithBot ℚ), ((8:ℚ):WithBot ℚ),
         ((9:ℚ):WithBot ℚ), ((10:ℚ):WithBot ℚ), ((11:ℚ):WithBot ℚ), ((12:ℚ):WithBot ℚ)]
        "ANA_systematic" (1/2, 1/2) (fun _ => 0)).getD 0 0 = ((1:ℚ):WithBot ℚ)) := by
  have h := pathology_ANA_systematic_halves
    [((1:ℚ):WithBot ℚ), ((2:ℚ):WithBot ℚ), ((3:ℚ):WithBot ℚ), ((4:ℚ):WithBot ℚ),
     ((5:ℚ):WithBot ℚ), ((6:ℚ):WithBot ℚ), ((7:ℚ):WithBot ℚ), ((8:ℚ):WithBot ℚ),
     ((9:ℚ):WithBot ℚ), ((10:ℚ):WithBot ℚ), ((11:ℚ):WithBot ℚ), ((12:ℚ):WithBot ℚ)]
    (1/2, 1/2) (fun _ => 0)
  exact ⟨h.2.2 6 (by norm_num) (by norm_num), (h.2.1 0 (by norm_num)).trans rfl⟩

/-- C7: pathology(beta, 'ANA') keeps each component with probability
prob[0]: with prob = [1, 0] every mask draw is 1 and the vector is
returned unchanged, with prob = [0, 1] every mask draw is 0 and the
all-zero vector is returned, for any uniform draws in [0, 1). -/
theorem pathology_ANA_extreme_probs (beta : List (WithBot ℚ)) (us : ℕ → ℚ)
    (h : ∀ i, i < beta.length → 0 ≤ us i ∧ us i < 1) :
    pathology beta "ANA" (1, 0) us = beta ∧
    pathology beta "ANA" (0, 1) us = beta.map (fun _ => (0 : WithBot ℚ)) := by
  constructor
  · rw [pathology_eq_ANA]
    apply List.ext_getElem (zipWith_range_length _ _)
    intro i h1 h2
    rw [zipWith_range_getElem _ _ _ h2]
    have hu := h i h2
    rw [npChoice10, if_pos hu.2]
    rw [WithBot.coe_one, mul_one]
  · rw [pathology_eq_ANA]
    apply List.ext_getElem (by rw [zipWith_range_length, List.length_map])
    intro i h1 h2
    have hib : i < beta.length := by
      rw [zipWith_range_length] at h1; exact h1
    rw [zipWith_range_getElem _ _ _ hib, List.getElem_map]
    have hu := h i hib
    rw [npChoice10, if_neg (not_lt_of_ge hu.1)]
    rw [WithBot.coe_zero, mul_zero]

theorem pathology_ANA_extreme_probs_witness :
    (∀ i, i < ([((3:ℚ):WithBot ℚ), ((4:ℚ):WithBot ℚ)]).length →
      (0:ℚ) ≤ (fun _ => (0:ℚ)) i ∧ (fun _ => (0:ℚ)) i < 1) ∧
    pathology [((3:ℚ):WithBot ℚ), ((4:ℚ):WithBot ℚ)] "ANA" (1, 0) (fun _ => 0) =
      [((3:ℚ):WithBot ℚ), ((4:ℚ):WithBot ℚ)] ∧
    pathology [((3:ℚ):WithBot ℚ), ((4:ℚ):WithBot ℚ)] "ANA" (0, 1) (fun _ => 0) =
      [(0 : WithBot ℚ), (0 : WithBot ℚ)] := by
  have hu : ∀ i, i < ([((3:ℚ):WithBot ℚ), ((4:ℚ):WithBot ℚ)]).length →
      (0:ℚ) ≤ (fun _ => (0:ℚ)) i ∧ (fun _ => (0:ℚ)) i < 1 := by
    intro i _
    norm_num
  have h := pathology_ANA_extreme_probs
    [((3:ℚ):WithBot ℚ), ((4:ℚ):WithBot ℚ)] (fun _ => 0) hu
  exact ⟨hu, h.1, h.2.trans rfl⟩

/-- C8: pathology leaves beta unchanged, raising no error, whenever the
kind is not one of the six mutating kinds; this covers both the kind
'none' and every unrecognized kind string. -/
theorem pathology_unrecognized_kind_identity (beta : List (WithBot ℚ)) (kind : String)
    (prob : ℚ × ℚ) (us : ℕ → ℚ)
    (hANA : kind ≠ "ANA") (hs : kind ≠ "screening") (hsi : kind ≠ "screening_inf")
    (hsr : kind ≠ "screening_random") (hAs : kind ≠ "ANA_systematic")
    (hAr : kind ≠ "ANA_random") :
    pathology beta kind prob us = beta := by
  unfold pathology
  by_cases h0 : kind = "none"
  · rw [if_pos h0]
  · rw [if_neg h0, if_neg hANA, if_neg hs, if_neg hsi, if_neg hsr, if_neg hAs, if_neg hAr]

theorem pathology_unrecognized_kind_identity_witness :
    ("typo" : String) ≠ "ANA" ∧
    pathology [((2:ℚ):WithBot ℚ), ⊥] "typo" (1/2, 1/2) (fun _ => 0) =
      [((2:ℚ):WithBot ℚ), ⊥] ∧
    pathology [((2:ℚ):WithBot ℚ), ⊥] "none" (1/2, 1/2) (fun _ => 0) =
      [((2:ℚ):WithBot ℚ), ⊥] :=
  ⟨by decide,
   pathology_unrecognized_kind_identity _ _ _ _ (by decide) (by decide) (by decide)
     (by decide) (by decide) (by decide),
   pathology_unrecognized_kind_identity _ _ _ _ (by decide) (by decide) (by decide)
     (by decide) (by decide) (by decide)⟩

/-- C2 counterexample: the claim says the mutation branch of the random
kinds fires with probability prob[1]; with prob = [1, 0] that would mean
never, yet the legal uniform draw u = 0 (drawn with probability one
under prob[0] = 1) does fire the branch for both kinds. -/
theorem pathology_random_prob_counterexample :
    pathology [((5:ℚ) : WithBot ℚ)] "screening_random" (1, 0) (fun _ => 0) =
      [((-10000 : ℚ) : WithBot ℚ)] ∧
    pathology [((3:ℚ) : WithBot ℚ), ((4:ℚ) : WithBot ℚ)] "ANA_random" (1, 0)
      (fun _ => 0) =
      [(0 : WithBot ℚ), ((4:ℚ) : WithBot ℚ)] := by
  constructor
  · rw [pathology_eq_screening_random]
    norm_num [npChoice10, npRandint]
  · rw [pathology_eq_ANA_random]
    norm_num [npChoice10, List.range_succ]

/-- C2 corrected: the mutation branch of 'screening_random' and
'ANA_random' is taken exactly when the Bernoulli uniform draw falls
below prob[0] — np.random.choice([1,0], p=prob) yields 1 with
probability prob[0], not prob[1].  When the branch fires,
'screening_random' writes -10000 at the uniformly drawn index and
'ANA_random' zeroes components 0 .. ⌊L/2⌋-1 leaving the rest unchanged;
otherwise beta is returned unchanged. -/
theorem pathology_random_branch_prob0 (beta : List (WithBot ℚ)) (prob : ℚ × ℚ)
    (us : ℕ → ℚ) (_hb : 0 < beta.length) :
    (us 0 < prob.1 →
      pathology beta "screening_random" prob us =
        beta.set (npRandint beta.length (us 1)) ((-10000 : ℚ) : WithBot ℚ) ∧
      ((pathology beta "ANA_random" prob us).length = beta.length ∧
       (∀ i, i < beta.length / 2 →
         (pathology beta "ANA_random" prob us).getD i 0 = 0) ∧
       (∀ i, beta.length / 2 ≤ i → i < beta.length →
         (pathology beta "ANA_random" prob us).getD i 0 = beta.getD i 0))) ∧
    (prob.1 ≤ us 0 →
      pathology beta "screening_random" prob us = beta ∧
      pathology beta "ANA_random" prob us = beta) := by
  constructor
  · intro hcoin
    have hc1 : npChoice10 prob (us 0) = 1 := by
      rw [npChoice10, if_pos hcoin]
    rw [pathology_eq_screening_random, pathology_eq_ANA_random, if_pos hc1, if_pos hc1]
    refine ⟨rfl, zipWith_range_length _ _, ?_, ?_⟩
    · intro i hi
      have hib : i < beta.length := lt_of_lt_of_le hi (Nat.div_le_self _ 2)
      rw [List.getD_eq_getElem _ _ (by rw [zipWith_range_length]; exact hib),
        zipWith_range_getElem _ _ _ hib, if_pos hi]
      rw [WithBot.coe_zero, mul_zero]
    · intro i h2 hib
      rw [List.getD_eq_getElem _ _ (by rw [zipWith_range_length]; exact hib),
        List.getD_eq_getElem _ _ hib, zipWith_range_getElem _ _ _ hib,
        if_neg (not_lt_of_ge h2)]
      rw [WithBot.coe_one, mul_one]
  · intro hcoin
    have hc0 : npChoice10 prob (us 0) ≠ 1 := by
      rw [npChoice10, if_neg (not_lt_of_ge hcoin)]
      norm_num
    rw [pathology_eq_screening_random, pathology_eq_ANA_random, if_neg hc0, if_neg hc0]
    exact ⟨rfl, rfl⟩

theorem pathology_random_branch_prob0_witness :
    (0 < ([((7:ℚ):WithBot ℚ), ((8:ℚ):WithBot ℚ)]).length ∧ (0:ℚ) < 1/2) ∧
    pathology [((7:ℚ):WithBot ℚ), ((8:ℚ):WithBot ℚ)] "screening_random" (1/2, 1/2)
      (fun _ => 0) = [((-10000:ℚ):WithBot ℚ), ((8:ℚ):WithBot ℚ)] := by
  have h := (pathology_random_branch_prob0 [((7:ℚ):WithBot ℚ), ((8:ℚ):WithBot ℚ)]
    (1/2, 1/2) (fun _ => 0) (by norm_num)).1 (by norm_num)
  refine ⟨⟨by norm_num, by norm_num⟩, ?_⟩
  rw [h.1]
  norm_num [npRandint]

/-! Helper lemmas: loops and argmax. -/

lemma exceptMap_ok {α β : Type} (f : α → Except SimError β) :
    ∀ (l : List α) (ys : List β), exceptMap f l = Except.ok ys →
      ys.length = l.length ∧ ∀ y ∈ ys, ∃ a ∈ l, f a = Except.ok y := by
  intro l
  induction l with
  | nil =>
    intro ys h
    rw [exceptMap] at h
    cases h
    simp
  | cons x xs ih =>
    intro ys h
    rw [exceptMap] at h
    cases hfx : f x with
    | error e => rw [hfx] at h; cases h
    | ok y =>
      rw [hfx] at h
      cases hrest : exceptMap f xs with
      | error e => rw [hrest] at h; cases h
      | ok ys2 =>
        rw [hrest] at h
        cases h
        obtain ⟨hlen, hmem⟩ := ih ys2 hrest
        constructor
        · simp [hlen]
        · intro z hz
          rcases List.mem_cons.mp hz with hz1 | hz2
          · exact ⟨x, List.mem_cons_self x xs, by rw [hz1]; exact hfx⟩
          · obtain ⟨a, ha, hfa⟩ := hmem z hz2
            exact ⟨a, List.mem_cons_of_mem x ha, hfa⟩

lemma exceptMap_first_error {α β : Type} (f : α → Except SimError β)
    (x : α) (xs : List α) (e : SimError) (hx : f x = Except.error e) :
    exceptMap f (x :: xs) = Except.error e := by
  rw [exceptMap, hx]

lemma argmaxAux_lt (l : List (WithBot ℚ)) :
    ∀ (i bi : ℕ) (bv : WithBot ℚ), bi < i → argmaxAux l i bi bv < i + l.length := by
  induction l with
  | nil =>
    intro i bi bv h
    rw [argmaxAux]
    simpa using lt_of_lt_of_le h (Nat.le_add_right i 0)
  | cons x xs ih =>
    intro i bi bv h
    rw [argmaxAux]
    rw [List.length_cons]
    by_cases hc : bv < x
    · rw [if_pos hc]
      have := ih (i+1) i x (Nat.lt_succ_self i)
      omega
    · rw [if_neg hc]
      have := ih (i+1) bi bv (lt_trans h (Nat.lt_succ_self i))
      omega

/-- np.argmax returns a valid index into its argument. -/
lemma npArgmax_lt_length (l : List (WithBot ℚ)) (i : ℕ) (h : npArgmax l = some i) :
    i < l.length := by
  cases l with
  | nil => rw [npArgmax] at h; cases h
  | cons x xs =>
    rw [npArgmax] at h
    cases h
    have := argmaxAux_lt xs 1 0 x Nat.zero_lt_one
    simpa [Nat.add_comm] using this

/-- C3 counterexample: the claim asserts every call with covariate count
greater than one raises; but with zero respondents the guard is never
reached, and generate_simulated_design(nresp=0, ncovs=2) returns a
bundle instead of raising. -/
theorem covs_guard_bypassed_counterexample :
    generate_simulated_design 0 3 2 4 2 (fun _ _ _ => 0) = Except.ok
      { X := [], Z := [], A := 2, R := 0, C := 2, T := 3, L := 4,
        Beta := none, Y := none, Gamma := none, Vbeta := none, w := none } := by
  rfl

/-- C3 corrected: with at least one respondent, any covariate count
greater than one makes both generate_simulated_design and
compute_beta_response raise NotImplementedError instead of returning a
bundle; with zero respondents the guard is bypassed (claim C10). -/
theorem covs_guard_raises_when_resp_positive :
    (∀ (nresp nscns nalts nlvls ncovs : ℕ) (u : ℕ → ℕ → ℕ → ℚ),
      0 < nresp → 1 < ncovs →
      generate_simulated_design nresp nscns nalts nlvls ncovs u =
        Except.error SimError.notImplemented) ∧
    (∀ (d : DataDict) (pt : Option String) (orc : SimOracle),
      0 < d.R → 1 < d.C →
      compute_beta_response d pt orc = Except.error SimError.notImplemented) := by
  constructor
  · intro nresp nscns nalts nlvls ncovs u h1 h2
    obtain ⟨k, hk⟩ : ∃ k, nresp = k + 1 := ⟨nresp - 1, by omega⟩
    subst hk
    unfold generate_simulated_design
    rw [List.range_succ_eq_map,
      exceptMap_first_error _ _ _ SimError.notImplemented (by simp only [if_pos h2])]
  · intro d pt orc h1 h2
    obtain ⟨k, hk⟩ : ∃ k, d.R = k + 1 := ⟨d.R - 1, by omega⟩
    simp only [compute_beta_response, hk, List.range_succ_eq_map]
    rw [exceptMap_first_error _ _ _ SimError.notImplemented (by simp only [if_pos h2])]

theorem covs_guard_raises_when_resp_positive_witness :
    ((0:ℕ) < 1 ∧ (1:ℕ) < 2) ∧
    generate_simulated_design 1 1 1 1 2 (fun _ _ _ => 0) =
      Except.error SimError.notImplemented :=
  ⟨⟨by norm_num, by norm_num⟩,
   covs_guard_raises_when_resp_positive.1 1 1 1 1 2 (fun _ _ _ => 0)
     (by norm_num) (by norm_num)⟩

/-- C10: the covariate guard lives inside the per-respondent loop, so
with zero respondents it is bypassed: generate_simulated_design with
nresp = 0 and ncovs = 2 returns a bundle with empty X and Z without
raising, and compute_beta_response on a bundle with R = 0 and C = 2
likewise returns a bundle without raising. -/
theorem covs_guard_bypassed_zero_resp :
    (∀ (nscns nalts nlvls : ℕ) (u : ℕ → ℕ → ℕ → ℚ),
      generate_simulated_design 0 nscns nalts nlvls 2 u = Except.ok
        { X := [], Z := [], A := nalts, R := 0, C := 2, T := nscns, L := nlvls,
          Beta := none, Y := none, Gamma := none, Vbeta := none, w := none }) ∧
    (∀ (d : DataDict) (pt : Option String) (orc : SimOracle),
      d.R = 0 → d.C = 2 →
      ∃ d2, compute_beta_response d pt orc = Except.ok d2) := by
  constructor
  · intro nscns nalts nlvls u
    simp [generate_simulated_design, exceptMap]
  · intro d pt orc h1 _h2
    cases hc : compute_beta_response d pt orc with
    | error e =>
      simp only [compute_beta_response, h1, List.range_zero, exceptMap] at hc
      exact Except.noConfusion hc
    | ok d2 => exact ⟨d2, rfl⟩

theorem covs_guard_bypassed_zero_resp_witness :
    generate_simulated_design 0 1 1 1 2 (fun _ _ _ => 0) = Except.ok
      { X := [], Z := [], A := 1, R := 0, C := 2, T := 1, L := 1,
        Beta := none, Y := none, Gamma := none, Vbeta := none, w := none } ∧
    ((0:ℕ) = 0 ∧ (2:ℕ) = 2 ∧
      ∃ d2, compute_beta_response
        { X := [], Z := [], A := 1, R := 0, C := 2, T := 1, L := 1,
          Beta := none, Y := none, Gamma := none, Vbeta := none, w := none }
        none
        { gammaU := fun _ => 0, betaDraw := fun _ _ => 0, pathU := fun _ _ => 0,
          gumbel := fun _ _ _ => 0, wU := fun _ => 0 } = Except.ok d2) :=
  ⟨covs_guard_bypassed_zero_resp.1 1 1 1 (fun _ _ _ => 0),
   rfl, rfl,
   covs_guard_bypassed_zero_resp.2
     { X := [], Z := [], A := 1, R := 0, C := 2, T := 1, L := 1,
       Beta := none, Y := none, Gamma := none, Vbeta := none, w := none }
     none
     { gammaU := fun _ => 0, betaDraw := fun _ _ => 0, pathU := fun _ _ => 0,
       gumbel := fun _ _ _ => 0, wU := fun _ => 0 } rfl rfl⟩

/-- Zero-argument oracle used by concrete instantiations. -/
def orcZero : SimOracle :=
  { gammaU := fun _ => 0, betaDraw := fun _ _ => 0, pathU := fun _ _ => 0,
    gumbel := fun _ _ _ => 0, wU := fun _ => 0 }

/-- C9: compute_beta_response returns the input bundle enriched: the
fields X, Z and the dimension scalars A, R, C, T, L are unchanged, the
fields Beta, Y, Gamma, Vbeta are added, and w is added exactly when the
pathology kind is 'ANA' (for a bundle that, like every design-generator
output, has no w yet). -/
theorem compute_beta_response_enriches_bundle (d : DataDict) (pt : Option String)
    (orc : SimOracle) (d2 : DataDict) (hw : d.w = none)
    (h : compute_beta_response d pt orc = Except.ok d2) :
    d2.X = d.X ∧ d2.Z = d.Z ∧ d2.A = d.A ∧ d2.R = d.R ∧ d2.C = d.C ∧
    d2.T = d.T ∧ d2.L = d.L ∧
    d2.Beta.isSome = true ∧ d2.Y.isSome = true ∧ d2.Gamma.isSome = true ∧
    d2.Vbeta.isSome = true ∧ (d2.w.isSome = true ↔ pt = some "ANA") := by
  simp only [compute_beta_response] at h
  split at h
  · exact Except.noConfusion h
  · cases h
    refine ⟨rfl, rfl, rfl, rfl, rfl, rfl, rfl, rfl, rfl, rfl, rfl, ?_⟩
    by_cases hpt : pt = some "ANA"
    · simp [hpt]
    · simp [hpt, hw]

theorem compute_beta_response_enriches_bundle_witness :
    ({ X := [], Z := [], A := 1, R := 0, C := 1, T := 0, L := 0, Beta := none,
       Y := none, Gamma := none, Vbeta := none, w := none } : DataDict).w = none ∧
    compute_beta_response
      { X := [], Z := [], A := 1, R := 0, C := 1, T := 0, L := 0, Beta := none,
        Y := none, Gamma := none, Vbeta := none, w := none }
      (some "ANA") orcZero = Except.ok
      { X := [], Z := [], A := 1, R := 0, C := 1, T := 0, L := 0, Beta := some [],
        Y := some [], Gamma := some [], Vbeta := some [], w := some [] } ∧
    ({ X := [], Z := [], A := 1, R := 0, C := 1, T := 0, L := 0, Beta := some [],
       Y := some [], Gamma := some [], Vbeta := some [], w := some [] } :
        DataDict).w.isSome = true := by
  refine ⟨rfl, by rfl, ?_⟩
  have h := compute_beta_response_enriches_bundle
    { X := [], Z := [], A := 1, R := 0, C := 1, T := 0, L := 0, Beta := none,
      Y := none, Gamma := none, Vbeta := none, w := none }
    (some "ANA") orcZero
    { X := [], Z := [], A := 1, R := 0, C := 1, T := 0, L := 0, Beta := some [],
      Y := some [], Gamma := some [], Vbeta := some [], w := some [] }
    rfl (by rfl)
  exact h.2.2.2.2.2.2.2.2.2.2.2.mpr rfl

lemma npBroadcastSub_ok_length (xs : List (WithBot ℚ)) (ys : List ℚ)
    (U : List (WithBot ℚ)) (h : npBroadcastSub xs ys = Except.ok U) :
    U.length = xs.length ∨ (xs.length = 1 ∧ U.length = ys.length) := by
  unfold npBroadcastSub at h
  by_cases h1 : xs.length = ys.length
  · rw [if_pos h1] at h
    cases h
    left
    rw [List.length_zipWith, h1, min_self]
  rw [if_neg h1] at h
  by_cases h2 : ys.length = 1
  · rw [if_pos h2] at h
    cases h
    left
    exact List.length_map _ _
  rw [if_neg h2] at h
  by_cases h3 : xs.length = 1
  · rw [if_pos h3] at h
    cases h
    right
    exact ⟨h3, List.length_map _ _⟩
  rw [if_neg h3] at h
  exact Except.noConfusion h

/-- C4: every bundle compute_beta_response returns carries an integer
choice matrix Y with one row per respondent, one entry per scenario,
and every entry a 1-indexed alternative in {1, .., A}, provided the
design X has A alternatives per scenario. -/
theorem compute_beta_response_Y_shape_range (d : DataDict) (pt : Option String)
    (orc : SimOracle) (d2 : DataDict)
    (hX : ∀ resp scn, resp < d.R → scn < d.T →
      ((d.X.getD resp []).getD scn []).length = d.A)
    (h : compute_beta_response d pt orc = Except.ok d2) :
    ∃ Ymat, d2.Y = some Ymat ∧ Ymat.length = d.R ∧
      ∀ row ∈ Ymat, row.length = d.T ∧ ∀ y ∈ row, 1 ≤ y ∧ y ≤ d.A := by
  simp only [compute_beta_response] at h
  split at h
  · exact Except.noConfusion h
  · rename_i Yrows hm
    cases h
    obtain ⟨hlen, hmem⟩ := exceptMap_ok _ _ _ hm
    refine ⟨Yrows, rfl, by simpa using hlen, ?_⟩
    intro row hrow
    obtain ⟨resp, hrespmem, hfr⟩ := hmem row hrow
    have hresp : resp < d.R := List.mem_range.mp hrespmem
    by_cases hC : 1 < d.C
    · rw [if_pos hC] at hfr
      exact Except.noConfusion hfr
    rw [if_neg hC] at hfr
    split at hfr
    · exact Except.noConfusion hfr
    rename_i row2 hm2
    split at hfr
    · cases hfr
      obtain ⟨hlen2, hmem2⟩ := exceptMap_ok _ _ _ hm2
      refine ⟨by simpa using hlen2, ?_⟩
      intro y hy
      obtain ⟨scn, hscnmem, hfy⟩ := hmem2 y hy
      have hscn : scn < d.T := List.mem_range.mp hscnmem
      split at hfy
      · exact Except.noConfusion hfy
      rename_i U hbs
      split at hfy
      · exact Except.noConfusion hfy
      rename_i idx hargmax
      cases hfy
      have hidx : idx < U.length := npArgmax_lt_length U idx hargmax
      have hXlen := hX resp scn hresp hscn
      rcases npBroadcastSub_ok_length _ _ _ hbs with h1 | ⟨h2, h3⟩
      · rw [h1, List.length_map, hXlen] at hidx
        omega
      · rw [List.length_map, hXlen] at h2
        rw [h3, List.length_map, List.length_range] at hidx
        omega
    · exact Except.noConfusion hfr

/-- Concrete one-respondent bundle used to witness the Y invariant. -/
def dWit : DataDict :=
  { X := [[[[1],[0]]]], Z := [[1]], A := 2, R := 1, C := 1, T := 1, L := 1,
    Beta := none, Y := none, Gamma := none, Vbeta := none, w := none }

/-- Output of compute_beta_response on dWit with the zero oracle. -/
def dWitOut : DataDict :=
  { X := [[[[1],[0]]]], Z := [[1]], A := 2, R := 1, C := 1, T := 1, L := 1,
    Beta := some [[((0:ℚ) : WithBot ℚ)]], Y := some [[1]], Gamma := some [-3],
    Vbeta := some [[3/2]], w := none }

theorem compute_beta_response_Y_shape_range_witness :
    (∀ resp scn, resp < dWit.R → scn < dWit.T →
      ((dWit.X.getD resp []).getD scn []).length = dWit.A) ∧
    (∃ Ymat, dWitOut.Y = some Ymat ∧ Ymat.length = dWit.R ∧
      ∀ row ∈ Ymat, row.length = dWit.T ∧ ∀ y ∈ row, 1 ≤ y ∧ y ≤ dWit.A) := by
  have hX : ∀ resp scn, resp < dWit.R → scn < dWit.T →
      ((dWit.X.getD resp []).getD scn []).length = dWit.A := by
    intro resp scn h1 h2
    simp only [dWit] at h1 h2 ⊢
    obtain rfl : resp = 0 := by omega
    obtain rfl : scn = 0 := by omega
    rfl
  refine ⟨hX, compute_beta_response_Y_shape_range dWit none orcZero dWitOut hX ?_⟩
  show compute_beta_response dWit none orcZero = Except.ok dWitOut
  norm_num [compute_beta_response, dWit, dWitOut, orcZero, exceptMap, npBroadcastSub,
    npArgmax, argmaxAux, dotWB, wbSub, List.range_succ]
  intro hcontra
  exact Option.noConfusion hcontra

/-- Concrete two-alternative bundle exhibiting the shared Gumbel draw. -/
def dShared : DataDict :=
  { X := [[[[0],[1]]]], Z := [[1]], A := 2, R := 1, C := 1, T := 1, L := 1,
    Beta := none, Y := none, Gamma := none, Vbeta := none, w := none }

/-- The one possible output of compute_beta_response on dShared: Y is
always [[2]], whatever the Gumbel draws are. -/
def dSharedOut : DataDict :=
  { X := [[[[0],[1]]]], Z := [[1]], A := 2, R := 1, C := 1, T := 1, L := 1,
    Beta := some [[((1:ℚ) : WithBot ℚ)]], Y := some [[2]], Gamma := some [-3],
    Vbeta := some [[3/2]], w := none }

/-- C1: refuted by the code.  The Gumbel noise is drawn with
size = C (the covariate count, 1), not one draw per alternative: the
single draw is broadcast across all alternatives of a scenario, a
common shift that cannot change the arg-max.  On the concrete bundle
dShared (A = 2 alternatives, C = 1) the entire output — in particular
Y = [[2]], the noise-free utility maximiser — is the same for every
Gumbel stream g, which contradicts the claimed independent
per-alternative draws (under which alternative 1 would win for some
draws and alternative 2 for others). -/
theorem compute_beta_response_single_gumbel_draw (g : ℕ → ℕ → ℕ → ℚ) :
    compute_beta_response dShared none
      { gammaU := fun _ => 0, betaDraw := fun _ _ => 1, pathU := fun _ _ => 0,
        gumbel := g, wU := fun _ => 0 } = Except.ok dSharedOut := by
  norm_num [compute_beta_response, dShared, dSharedOut, exceptMap, npBroadcastSub,
    npArgmax, argmaxAux, dotWB, wbSub, List.range_succ, ← WithBot.coe_add,
    WithBot.coe_lt_coe]
  refine ⟨?_, fun hcontra => Option.noConfusion hcontra⟩
  have hlt2 : ((-(g 0 0 0) : ℚ) : WithBot ℚ) <
      ((1 : WithBot ℚ) + ((-(g 0 0 0) : ℚ) : WithBot ℚ)) := by
    have hco : ((1 : WithBot ℚ) + ((-(g 0 0 0) : ℚ) : WithBot ℚ)) =
        (((1 + -(g 0 0 0)) : ℚ) : WithBot ℚ) := by
      rw [← WithBot.coe_one, ← WithBot.coe_add]
    rw [hco, WithBot.coe_lt_coe]
    linarith
  rw [if_pos hlt2]
